import Mathlib

/-!
Verification development for the NOC-Buzzer repository.

Each section embeds one Python module (or the relevant part of it) as Lean
definitions and proves the specified properties about them.  Machine-level
concerns (threads, sockets, the database driver, the Modbus library) are
modelled by explicit state passing; third-party calls whose results the
code merely consumes (the HTML-to-text converter, the similarity ratio,
the trained scikit-learn models, the NLTK tokenizer and lemmatizer) are
parameters of the embedded functions.
-/

namespace NocBuzzer

/-! ## Python string primitives shared by several modules -/

/-- The whitespace characters recognised by Python's `str.strip()` /
`str.isspace()` (the ASCII ones; the repository only ever handles ASCII
configuration and label strings). -/
def pyWhitespace : List Char := [' ', '\t', '\n', '\r', '\x0b', '\x0c']

def isPySpace (c : Char) : Bool := pyWhitespace.contains c

/-- Python `str.strip()`: drop leading and trailing whitespace. -/
def pyStrip (s : String) : String :=
  String.mk (((s.data.dropWhile isPySpace).reverse.dropWhile isPySpace).reverse)

/-- Python `str.lower()`, restricted to ASCII case folding (all category and
severity labels in the repository are ASCII). -/
def asciiLower (s : String) : String := String.mk (s.data.map Char.toLower)

/-- Python truthiness of an optional string: `None` and `""` are falsy. -/
def truthyOpt : Option String → Bool
  | none => false
  | some s => !(s == "")

/-! ## decisions.py -/

/-- `SEVERITY_HIGH = {"high", "critical"}` (decisions.py line 4). -/
def SEVERITY_HIGH : List String := ["high", "critical"]

/-- `CATEGORY_ALARM = "alarm"` (decisions.py line 5). -/
def CATEGORY_ALARM : String := "alarm"

/-- `_norm(v) = (v or "").strip().lower()` (decisions.py lines 7-8).
The argument is an `Option String` so that a `None` value stored under the
key is covered; `(v or "")` maps `None` (and `""`) to `""`. -/
def normField (v : Option String) : String :=
  asciiLower (pyStrip (if truthyOpt v then v.getD "" else ""))

/-- A prediction mapping as consumed by `should_sound_buzzer`: the two keys
the function reads, each possibly absent. `pred.get(k, "")` yields `""` for
an absent key. -/
structure Prediction where
  category : Option String
  severity : Option String

/-- `should_sound_buzzer` (decisions.py lines 10-13). -/
def should_sound_buzzer (pred : Prediction) : Bool :=
  let severity := normField (some (pred.severity.getD ""))
  let category := normField (some (pred.category.getD ""))
  (category == CATEGORY_ALARM) && SEVERITY_HIGH.contains severity

/-- Claim C4: `should_sound_buzzer` returns true iff the trimmed, lowercased
category equals "alarm" and the trimmed, lowercased severity is "high" or
"critical"; absent fields are treated as the empty string.  The spec's three
worked examples are included. -/
theorem should_sound_buzzer_spec :
    (∀ pred : Prediction,
      should_sound_buzzer pred = true ↔
        (asciiLower (pyStrip (pred.category.getD "")) = "alarm" ∧
          (asciiLower (pyStrip (pred.severity.getD "")) = "high" ∨
            asciiLower (pyStrip (pred.severity.getD "")) = "critical"))) ∧
    should_sound_buzzer ⟨some "Alarm", some "High"⟩ = true ∧
    should_sound_buzzer ⟨some "Alarm", some "Low"⟩ = false ∧
    should_sound_buzzer ⟨some "Info", some "Critical"⟩ = false ∧
    should_sound_buzzer ⟨none, none⟩ = false := by
  refine ⟨fun pred => ?_, by decide, by decide, by decide, by decide⟩
  have hnorm : ∀ s : String, normField (some s) = asciiLower (pyStrip s) := by
    intro s
    by_cases hs : s = "" <;> simp [normField, truthyOpt, hs]
  unfold should_sound_buzzer
  simp only [hnorm, SEVERITY_HIGH, CATEGORY_ALARM, Bool.and_eq_true,
    beq_iff_eq, List.contains_cons, List.contains_nil, Bool.or_eq_true,
    Bool.or_false]

/-! ## config_loader.py : environment-variable substitution

`ConfigLoader._substitute_env_vars` (config_loader.py lines 107-124) applies
`re.sub` with the pattern `\$\{([^:}]+)(?::([^}]*))?\}` to every string
leaf and recurses into dicts and lists.  The scanner below is the
operational reading of that regex: at each position, a match needs a
literal `$` `{`, then one or more characters other than `:` and `}` (the
name group), then either `}`, or `:` followed by zero or more characters
other than `}` (the default group) and `}`.  `re.sub` replaces
non-overlapping leftmost matches and does not rescan replacement text;
`replace_var` maps a match to `os.getenv(name, default)` with default
`""` when the `:default` part is absent.  The process environment is
modelled as an association list. -/

/-- Characters allowed in the placeholder name group `[^:}]+`. -/
def phNamePred (c : Char) : Bool := !(c == ':') && !(c == '}')

/-- Characters allowed in the placeholder default group `[^}]*`. -/
def phDfltPred (c : Char) : Bool := !(c == '}')

/-- Try to match `NAME}` or `NAME:default}` (the part of the placeholder
pattern after the opening `${`) at the head of `cs`.  Returns the name, the
optional default, and the remainder of the input after the closing `}`. -/
def parsePH (cs : List Char) : Option (List Char × Option (List Char) × List Char) :=
  match cs.dropWhile phNamePred with
  | [] => none
  | c :: r2 =>
    if (cs.takeWhile phNamePred).isEmpty then none
    else if c = '}' then some (cs.takeWhile phNamePred, none, r2)
    else if c = ':' then
      match r2.dropWhile phDfltPred with
      | [] => none
      | c2 :: r3 =>
        if c2 = '}' then
          some (cs.takeWhile phNamePred, some (r2.takeWhile phDfltPred), r3)
        else none
    else none

theorem length_dropWhile_le (p : Char → Bool) (l : List Char) :
    (l.dropWhile p).length ≤ l.length := by
  induction l with
  | nil => simp [List.dropWhile]
  | cons a t ih =>
    by_cases hp : p a
    · simp only [List.dropWhile_cons, hp, if_true]
      simp only [List.length_cons]
      omega
    · simp [List.dropWhile_cons, hp]

theorem parsePH_sublen : ∀ {cs name dflt rest},
    parsePH cs = some (name, dflt, rest) → rest.length < cs.length := by
  intro cs name dflt rest h
  unfold parsePH at h
  split at h
  next heq => exact Option.noConfusion h
  next c r2 heq =>
    have h1 := length_dropWhile_le phNamePred cs
    rw [heq] at h1
    simp only [List.length_cons] at h1
    split at h
    · exact Option.noConfusion h
    · split at h
      · simp only [Option.some.injEq, Prod.mk.injEq] at h
        obtain ⟨-, -, h3⟩ := h
        subst h3
        omega
      · split at h
        · have h2 := length_dropWhile_le phDfltPred r2
          split at h
          next => exact Option.noConfusion h
          next c2 r3 heq2 =>
            rw [heq2] at h2
            simp only [List.length_cons] at h2
            split at h
            · simp only [Option.some.injEq, Prod.mk.injEq] at h
              obtain ⟨-, -, h3⟩ := h
              subst h3
              omega
            · exact Option.noConfusion h
        · exact Option.noConfusion h

/-- `os.getenv(name, default)` against the modelled environment. -/
def envLookup (env : List (String × String)) (name : String) (dflt : String) : String :=
  match env.lookup name with
  | some v => v
  | none => dflt

/-- The `re.sub` scan over one string: at each position, if a placeholder
matches, emit the substitution and continue after the match; otherwise emit
the character and continue at the next position. -/
def substEnvChars (env : List (String × String)) : List Char → List Char
  | [] => []
  | '$' :: '{' :: rest =>
    match h : parsePH rest with
    | some (name, dflt, rest2) =>
      (envLookup env (String.mk name) (String.mk (dflt.getD []))).data
        ++ substEnvChars env rest2
    | none => '$' :: substEnvChars env ('{' :: rest)
  | c :: rest => c :: substEnvChars env rest
termination_by cs => cs.length
decreasing_by
  all_goals simp only [List.length_cons]
  all_goals try omega
  all_goals have hlt := parsePH_sublen h
  all_goals omega

/-- String-level wrapper of the `re.sub` scan. -/
def substEnvString (env : List (String × String)) (s : String) : String :=
  String.mk (substEnvChars env s.data)

theorem substEnvChars_nil (env : List (String × String)) :
    substEnvChars env [] = [] := by
  rw [substEnvChars]

theorem substEnvChars_cons_ne (env : List (String × String)) (c : Char)
    (rest : List Char) (hc : c ≠ '$') :
    substEnvChars env (c :: rest) = c :: substEnvChars env rest := by
  rw [substEnvChars.eq_def]
  split
  next heq => exact List.noConfusion heq
  next heq => exact absurd (by injection heq) hc
  next heq =>
    injection heq with h1 h2
    subst h1
    subst h2
    rfl

theorem substEnvChars_ph (env : List (String × String)) (rest name : List Char)
    (dflt : Option (List Char)) (rest2 : List Char)
    (h : parsePH rest = some (name, dflt, rest2)) :
    substEnvChars env ('$' :: '{' :: rest) =
      (envLookup env (String.mk name) (String.mk (dflt.getD []))).data
        ++ substEnvChars env rest2 := by
  rw [substEnvChars.eq_def]
  split
  next heq => exact List.noConfusion heq
  next rest' heq =>
    injection heq with h1 h2
    injection h2 with h3 h4
    subst h4
    rw [h]
  next imp heq =>
    injection heq with h1 h2
    exact (imp rest h1.symm h2.symm).elim

theorem takeWhile_append_stop (p : Char → Bool) (l : List Char) (x : Char)
    (t : List Char) (hl : ∀ c ∈ l, p c = true) (hx : p x = false) :
    (l ++ x :: t).takeWhile p = l := by
  induction l with
  | nil => simp [List.takeWhile_cons, hx]
  | cons a l ih =>
    have ha := hl a (by simp)
    simp only [List.cons_append, List.takeWhile_cons, ha, if_true]
    rw [ih (fun c hc => hl c (by simp [hc]))]

theorem dropWhile_append_stop (p : Char → Bool) (l : List Char) (x : Char)
    (t : List Char) (hl : ∀ c ∈ l, p c = true) (hx : p x = false) :
    (l ++ x :: t).dropWhile p = x :: t := by
  induction l with
  | nil => simp [List.dropWhile_cons, hx]
  | cons a l ih =>
    have ha := hl a (by simp)
    simp only [List.cons_append, List.dropWhile_cons, ha, if_true]
    exact ih (fun c hc => hl c (by simp [hc]))

theorem phNamePred_of (c : Char) (h1 : c ≠ ':') (h2 : c ≠ '}') :
    phNamePred c = true := by
  simp [phNamePred, h1, h2]

theorem phDfltPred_of (c : Char) (h2 : c ≠ '}') : phDfltPred c = true := by
  simp [phDfltPred, h2]

theorem parsePH_name (name post : List Char) (hne : name ≠ [])
    (hname : ∀ c ∈ name, c ≠ ':' ∧ c ≠ '}') :
    parsePH (name ++ '}' :: post) = some (name, none, post) := by
  have hnp : ∀ c ∈ name, phNamePred c = true :=
    fun c hc => phNamePred_of c (hname c hc).1 (hname c hc).2
  unfold parsePH
  rw [dropWhile_append_stop _ _ _ _ hnp (by decide),
      takeWhile_append_stop _ _ _ _ hnp (by decide)]
  have hie : name.isEmpty = false := by
    cases name with
    | nil => exact absurd rfl hne
    | cons a l => rfl
  simp [hie]

theorem parsePH_name_dflt (name dflt post : List Char) (hne : name ≠ [])
    (hname : ∀ c ∈ name, c ≠ ':' ∧ c ≠ '}') (hdflt : ∀ c ∈ dflt, c ≠ '}') :
    parsePH (name ++ ':' :: (dflt ++ '}' :: post)) = some (name, some dflt, post) := by
  have hnp : ∀ c ∈ name, phNamePred c = true :=
    fun c hc => phNamePred_of c (hname c hc).1 (hname c hc).2
  have hdp : ∀ c ∈ dflt, phDfltPred c = true :=
    fun c hc => phDfltPred_of c (hdflt c hc)
  unfold parsePH
  rw [dropWhile_append_stop _ _ _ _ hnp (by decide),
      takeWhile_append_stop _ _ _ _ hnp (by decide)]
  have hie : name.isEmpty = false := by
    cases name with
    | nil => exact absurd rfl hne
    | cons a l => rfl
  simp only [hie, Bool.false_eq_true, if_false, reduceIte]
  rw [dropWhile_append_stop _ _ _ _ hdp (by decide),
      takeWhile_append_stop _ _ _ _ hdp (by decide)]
  simp

theorem substEnvChars_append_no_dollar (env : List (String × String))
    (pre rest : List Char) (hpre : ∀ c ∈ pre, c ≠ '$') :
    substEnvChars env (pre ++ rest) = pre ++ substEnvChars env rest := by
  induction pre with
  | nil => simp
  | cons a t ih =>
    rw [List.cons_append, substEnvChars_cons_ne env a _ (hpre a (by simp)),
      ih (fun c hc => hpre c (by simp [hc])), List.cons_append]

/-- A YAML document as loaded by `yaml.safe_load`: string, integer and
boolean scalars, null, sequences and mappings. -/
inductive YamlValue where
  | str (s : String)
  | int (n : Int)
  | bool (b : Bool)
  | null
  | list (items : List YamlValue)
  | dict (entries : List (String × YamlValue))

mutual

/-- `ConfigLoader._substitute_env_vars` (config_loader.py lines 107-124):
substitute in string leaves, recurse into dicts (values only) and lists,
return every other value unchanged. -/
def substitute_env_vars (env : List (String × String)) : YamlValue → YamlValue
  | .str s => .str (substEnvString env s)
  | .int n => .int n
  | .bool b => .bool b
  | .null => .null
  | .list items => .list (substYamlList env items)
  | .dict entries => .dict (substYamlDict env entries)

/-- The `[self._substitute_env_vars(item) for item in value]` comprehension. -/
def substYamlList (env : List (String × String)) : List YamlValue → List YamlValue
  | [] => []
  | v :: vs => substitute_env_vars env v :: substYamlList env vs

/-- The `{k: self._substitute_env_vars(v) for k, v in value.items()}`
comprehension (keys are left untouched). -/
def substYamlDict (env : List (String × String)) :
    List (String × YamlValue) → List (String × YamlValue)
  | [] => []
  | (k, v) :: kvs => (k, substitute_env_vars env v) :: substYamlDict env kvs

end

theorem substYamlList_eq_map (env : List (String × String)) (l : List YamlValue) :
    substYamlList env l = l.map (substitute_env_vars env) := by
  induction l with
  | nil => rfl
  | cons v vs ih => simp [substYamlList, ih]

theorem substYamlDict_eq_map (env : List (String × String))
    (l : List (String × YamlValue)) :
    substYamlDict env l = l.map (fun kv => (kv.1, substitute_env_vars env kv.2)) := by
  induction l with
  | nil => rfl
  | cons kv kvs ih =>
    cases kv
    simp [substYamlDict, ih]

/-- Claim C6: every `${NAME}` placeholder in a string leaf is replaced by
the environment value of `NAME` when set and by `""` when unset; every
`${NAME:default}` placeholder by the value when set and the literal default
otherwise; non-string values are unchanged and mappings/sequences are
traversed recursively.  The first two conjuncts give the compositional
per-placeholder behaviour (a prefix with no `$` cannot start a match, the
name group is one or more characters other than `:` `}`, the default group
any characters other than `}`); the next two spell out set/unset lookup;
the rest covers the recursive traversal. -/
theorem substitute_env_vars_spec (env : List (String × String)) :
    (∀ pre name post : List Char, (∀ c ∈ pre, c ≠ '$') → name ≠ [] →
      (∀ c ∈ name, c ≠ ':' ∧ c ≠ '}') →
      substEnvChars env (pre ++ '$' :: '{' :: (name ++ '}' :: post)) =
        pre ++ (envLookup env (String.mk name) "").data ++ substEnvChars env post) ∧
    (∀ pre name dflt post : List Char, (∀ c ∈ pre, c ≠ '$') → name ≠ [] →
      (∀ c ∈ name, c ≠ ':' ∧ c ≠ '}') → (∀ c ∈ dflt, c ≠ '}') →
      substEnvChars env (pre ++ '$' :: '{' :: (name ++ ':' :: (dflt ++ '}' :: post))) =
        pre ++ (envLookup env (String.mk name) (String.mk dflt)).data
          ++ substEnvChars env post) ∧
    (∀ name dflt v, env.lookup name = some v → envLookup env name dflt = v) ∧
    (∀ name dflt, env.lookup name = none → envLookup env name dflt = dflt) ∧
    (∀ s, substitute_env_vars env (.str s) = .str (substEnvString env s)) ∧
    (∀ n, substitute_env_vars env (.int n) = .int n) ∧
    (∀ b, substitute_env_vars env (.bool b) = .bool b) ∧
    (substitute_env_vars env .null = .null) ∧
    (∀ items, substitute_env_vars env (.list items) =
      .list (items.map (substitute_env_vars env))) ∧
    (∀ entries, substitute_env_vars env (.dict entries) =
      .dict (entries.map (fun kv => (kv.1, substitute_env_vars env kv.2)))) := by
  refine ⟨?_, ?_, ?_, ?_, ?_, ?_, ?_, ?_, ?_, ?_⟩
  · intro pre name post hpre hne hname
    rw [substEnvChars_append_no_dollar env _ _ hpre,
      substEnvChars_ph env _ _ _ _ (parsePH_name name post hne hname)]
    simp
  · intro pre name dflt post hpre hne hname hdflt
    rw [substEnvChars_append_no_dollar env _ _ hpre,
      substEnvChars_ph env _ _ _ _ (parsePH_name_dflt name dflt post hne hname hdflt)]
    simp
  · intro name dflt v h
    simp [envLookup, h]
  · intro name dflt h
    simp [envLookup, h]
  · intro s; rfl
  · intro n; rfl
  · intro b; rfl
  · rfl
  · intro items
    simp [substitute_env_vars, substYamlList_eq_map]
  · intro entries
    simp [substitute_env_vars, substYamlDict_eq_map]

/-- Witness for C6: the spec's worked example.  With `DB_PASSWORD=secret123`
the string consisting of the single placeholder over name `DB_PASSWORD`
loads as `secret123`; with the variable unset and default `fallback`, it
loads as `fallback`. -/
theorem substitute_env_vars_spec_witness :
    substEnvString [("DB_PASSWORD", "secret123")]
        (String.mk ('$' :: '{' :: ("DB_PASSWORD".data ++ '}' :: []))) = "secret123" ∧
    substEnvString []
        (String.mk
          ('$' :: '{' :: ("DB_PASSWORD".data ++ ':' :: ("fallback".data ++ '}' :: [])))) =
      "fallback" := by
  constructor
  · have h := (substitute_env_vars_spec [("DB_PASSWORD", "secret123")]).1
      [] "DB_PASSWORD".data [] (by decide) (by decide) (by decide)
    simp only [List.nil_append] at h
    rw [substEnvString]
    rw [show (String.mk ('$' :: '{' :: ("DB_PASSWORD".data ++ '}' :: []))).data =
      '$' :: '{' :: ("DB_PASSWORD".data ++ '}' :: []) from rfl]
    rw [h, substEnvChars_nil]
    decide
  · have h := (substitute_env_vars_spec []).2.1
      [] "DB_PASSWORD".data "fallback".data [] (by decide) (by decide) (by decide)
      (by decide)
    simp only [List.nil_append] at h
    rw [substEnvString]
    rw [show (String.mk
        ('$' :: '{' :: ("DB_PASSWORD".data ++ ':' :: ("fallback".data ++ '}' :: [])))).data =
      '$' :: '{' :: ("DB_PASSWORD".data ++ ':' :: ("fallback".data ++ '}' :: []))
      from rfl]
    rw [h, substEnvChars_nil]
    decide

/-! ## prediction_fin.py : the legacy prediction ensemble

The trained scikit-learn artifacts (`classifier_fin.cv` and the five
models) and the NLTK tokenizer are black boxes; an `Ensemble` packages
them as abstract functions over an abstract vectorized-text type `V`.
`classifier_pred` additionally returns the trace of `.predict` calls it
makes (in source order, each paired with the model that made it), so that
which models are consulted is part of the embedded behaviour. -/

/-- `statistics.mode` raises `StatisticsError` only for empty input on the
repository's required runtime (Python >= 3.8: preflight_validator.py line
91 declares `min_python = (3, 8)`, and ims.py line 58 uses the `list[str]`
annotation, which needs >= 3.9).  Since Python 3.8 it never raises on a
tie. -/
inductive MLError where
  | emptyData
deriving DecidableEq

/-- The maximal multiplicity of any value in `l`. -/
def maxMultiplicity (l : List String) : Nat :=
  (l.map fun y => l.count y).foldr max 0

/-- `statistics.mode` on Python >= 3.8: `Counter(data).most_common(1)` —
`Counter` preserves first-occurrence order and `most_common` sorts stably
by count, so the result is the first-encountered value of maximal
multiplicity; `StatisticsError` only when the data is empty, never on a
multimodal tie. -/
def mode (l : List String) : Except MLError String :=
  match l.find? (fun x => l.count x == maxMultiplicity l) with
  | some x => .ok x
  | none => .error .emptyData

/-- `most_common` (prediction_fin.py lines 15-17). -/
def most_common (thislistt : List String) : Except MLError String := mode thislistt

/-- `preprocess_text` (prediction_fin.py lines 21-32): lowercase; keep a
character iff `not c.isdigit() and c.isalpha() or c.isspace()` (by Python
precedence: alphabetic-and-not-digit, or whitespace); tokenize; rejoin
with single spaces.  No lemmatization. -/
def preprocess_text (tokenize : String → List String) (text : String) : String :=
  let lowered := asciiLower text
  let filtered := String.mk
    (lowered.data.filter fun c => (!c.isDigit && c.isAlpha) || isPySpace c)
  String.intercalate " " (tokenize filtered)

/-- The five trained models of classifier_fin.py. -/
inductive ModelName where
  | LR
  | SVM
  | RFC
  | Naive
  | DTC
deriving DecidableEq

/-- The trained artifacts `classifier_pred` consults: the fitted
vectorizer's `transform` and each model's `predict`, plus the tokenizer
used by `preprocess_text`. -/
structure Ensemble (V : Type) where
  cv_transform : String → V
  lr : V → String
  SVM : V → String
  RFC : V → String
  Naive : V → String
  DTC : V → String
  tokenize : String → List String

/-- `classifier_pred` (prediction_fin.py lines 36-78).  The first component
is the returned value (`most_common` of the vote list built on line 71 from
the SVM, decision-tree and random-forest predictions); the second component
records the five `.predict` calls the body makes, lines 45, 50, 55, 60 and
65, in source order. -/
def classifier_pred {V : Type} (E : Ensemble V) (new_text : String) :
    Except MLError String × List (ModelName × String) :=
  let procsd_text := preprocess_text E.tokenize new_text
  let test_text := E.cv_transform procsd_text
  let preds : List (ModelName × String) :=
    [(.LR, E.lr test_text), (.SVM, E.SVM test_text), (.RFC, E.RFC test_text),
      (.Naive, E.Naive test_text), (.DTC, E.DTC test_text)]
  let thislistt := [E.SVM test_text, E.DTC test_text, E.RFC test_text]
  (most_common thislistt, preds)

theorem mode_three_all (a : String) : mode [a, a, a] = .ok a := by
  have h1 : [a, a, a].count a = 3 := by simp [List.count_cons]
  simp [mode, maxMultiplicity, h1, List.find?]

theorem mode_three_aac (a c : String) (h : a ≠ c) : mode [a, a, c] = .ok a := by
  have h1 : [a, a, c].count a = 2 := by simp [List.count_cons, h]
  have h2 : [a, a, c].count c = 1 := by simp [List.count_cons, Ne.symm h]
  simp [mode, maxMultiplicity, h1, h2, List.find?]

theorem mode_three_aba (a b : String) (h : a ≠ b) : mode [a, b, a] = .ok a := by
  have h1 : [a, b, a].count a = 2 := by simp [List.count_cons, h]
  have h2 : [a, b, a].count b = 1 := by simp [List.count_cons, Ne.symm h]
  simp [mode, maxMultiplicity, h1, h2, List.find?]

theorem mode_three_abb (a b : String) (h : a ≠ b) : mode [a, b, b] = .ok b := by
  have h1 : [a, b, b].count a = 1 := by simp [List.count_cons, h]
  have h2 : [a, b, b].count b = 2 := by simp [List.count_cons, Ne.symm h]
  simp [mode, maxMultiplicity, h1, h2, List.find?]

theorem mode_three_distinct (a b c : String) (hab : a ≠ b) (hac : a ≠ c)
    (hbc : b ≠ c) : mode [a, b, c] = .ok a := by
  have h1 : [a, b, c].count a = 1 := by simp [List.count_cons, hab, hac]
  have h2 : [a, b, c].count b = 1 := by simp [List.count_cons, Ne.symm hab, hbc]
  have h3 : [a, b, c].count c = 1 := by
    simp [List.count_cons, Ne.symm hac, Ne.symm hbc]
  simp [mode, maxMultiplicity, h1, h2, h3, List.find?]

/-- A concrete ensemble over `V := Unit` used for the closed statements. -/
def constEnsemble : Ensemble Unit :=
  ⟨fun _ => (), fun _ => "Information", fun _ => "Alarm", fun _ => "Alarm",
    fun _ => "Information", fun _ => "Alarm", fun s => [s]⟩

/-- A concrete ensemble whose three consulted models disagree pairwise:
SVM predicts "Alarm", decision tree "Information", random forest
"Warning". -/
def distinctEnsemble : Ensemble Unit :=
  ⟨fun _ => (), fun _ => "Information", fun _ => "Alarm", fun _ => "Warning",
    fun _ => "Information", fun _ => "Information", fun s => [s]⟩

/-- Claim C1 counterexample, two parts.  First, on the concrete input
`"test"` the predict operation obtains a prediction from logistic
regression (prediction_fin.py line 45, `pred_LR =
classifier_fin.lr.predict(test_text)`) and from naive Bayes (line 60), so
the set of consulted models is all five, not exactly the three the claim
states.  Second, on an ensemble whose three consulted predictions are
pairwise distinct, the operation does not fail: `statistics.mode` on the
required runtime (Python >= 3.8) returns the first mode, here the
support-vector prediction "Alarm", so there is no AmbiguousResult error
path. -/
theorem classifier_pred_consults_lr :
    ModelName.LR ∈ ((classifier_pred constEnsemble "test").2.map Prod.fst) ∧
    ModelName.Naive ∈ ((classifier_pred constEnsemble "test").2.map Prod.fst) ∧
    ((classifier_pred constEnsemble "test").2.map Prod.fst ≠
      [ModelName.SVM, ModelName.DTC, ModelName.RFC]) ∧
    (classifier_pred distinctEnsemble "test").1 = .ok "Alarm" ∧
    (classifier_pred distinctEnsemble "test").1 ≠ .error .emptyData := by
  have hok : (classifier_pred distinctEnsemble "test").1 = .ok "Alarm" := by rfl
  refine ⟨by decide, by decide, by decide, hok, ?_⟩
  rw [hok]
  intro h
  exact Except.noConfusion h

/-- Claim C1 (amended): `classifier_pred` obtains a prediction from all
five trained models, in source order; the majority vote is taken over only
the support-vector, decision-tree and random-forest predictions (the
logistic-regression and naive-Bayes predictions are computed but discarded,
so they never influence the result); the returned value is the statistical
mode of those three predictions when a unique mode exists, and when the
three are pairwise distinct the operation does not fail but returns the
first entry of the vote list — the support-vector prediction — because
`statistics.mode` on the required runtime (Python >= 3.8) returns the
first-encountered mode and never raises on a tie. -/
theorem classifier_pred_spec {V : Type} (E : Ensemble V) (text : String)
    (a b c : String) :
    ((classifier_pred E text).2.map Prod.fst =
      [ModelName.LR, ModelName.SVM, ModelName.RFC, ModelName.Naive, ModelName.DTC]) ∧
    ((classifier_pred E text).1 =
      most_common [E.SVM (E.cv_transform (preprocess_text E.tokenize text)),
        E.DTC (E.cv_transform (preprocess_text E.tokenize text)),
        E.RFC (E.cv_transform (preprocess_text E.tokenize text))]) ∧
    (∀ lr2 nv2 : V → String,
      (classifier_pred ⟨E.cv_transform, lr2, E.SVM, E.RFC, nv2, E.DTC, E.tokenize⟩
          text).1 = (classifier_pred E text).1) ∧
    (a = b → most_common [a, b, c] = .ok a) ∧
    (b = c → most_common [a, b, c] = .ok b) ∧
    (a = c → most_common [a, b, c] = .ok a) ∧
    (a ≠ b → a ≠ c → b ≠ c → most_common [a, b, c] = .ok a) := by
  refine ⟨rfl, rfl, fun lr2 nv2 => rfl, ?_, ?_, ?_, ?_⟩
  · intro hab
    subst hab
    by_cases hc : a = c
    · subst hc; exact mode_three_all a
    · exact mode_three_aac a c hc
  · intro hbc
    subst hbc
    by_cases ha : a = b
    · subst ha; exact mode_three_all a
    · exact mode_three_abb a b ha
  · intro hac
    subst hac
    by_cases hb : a = b
    · subst hb; exact mode_three_all a
    · exact mode_three_aba a b hb
  · exact mode_three_distinct a b c

/-- Witness for C1 (amended): a 2-1 vote returns the majority label; a
pairwise-distinct vote returns the first (support-vector) label instead of
failing. -/
theorem classifier_pred_spec_witness :
    most_common ["Alarm", "Alarm", "Information"] = .ok "Alarm" ∧
    most_common ["Alarm", "Information", "Warning"] = .ok "Alarm" := by
  constructor
  · exact (classifier_pred_spec constEnsemble "x" "Alarm" "Alarm"
      "Information").2.2.2.1 rfl
  · exact (classifier_pred_spec constEnsemble "x" "Alarm" "Information"
      "Warning").2.2.2.2.2.2 (by decide) (by decide) (by decide)

/-! ## app.py and ims.py : per-message orchestration

One unread message's processing, per operating mode.  The Gmail message,
the HTML-to-text conversion (`BeautifulSoup(...).get_text`), the
`difflib.SequenceMatcher(None, a, b).ratio()` similarity and the
classifier are parameters; the outcome records the externally visible
effects: whether the message was marked read, which fault record (if any)
was inserted, and whether buzzer activation was invoked. -/

/-- The single configured known-false-alert text (app.py lines 58-60;
ims.py lines 20-23 spell the identical string as a concatenation of two
adjacent literals). -/
def falseAlertText : String :=
  "From : +263772151364 ZIMPLATS NGEZI SERVER ROOM:There is a problem with the environment in server room. Please attend."

/-- `FALSE_ALERTS` (app.py line 58). -/
def FALSE_ALERTS : List String := [falseAlertText]

/-- `FALSE_ALERTS` (ims.py line 20). -/
def ims_FALSE_ALERTS : List String := [falseAlertText]

/-- `CONFIG['MAX_DESC_LEN']` (app.py line 54) and ims.py's `MAX_DESC_LEN`. -/
def MAX_DESC_LEN : Nat := 255

/-- `is_similar_to_false_alert(text, threshold=0.7)` (app.py lines 307-312):
true iff some configured false-alert text has similarity ratio at or above
the threshold. -/
def is_similar_to_false_alert (ratio : String → String → ℚ) (text : String)
    (threshold : ℚ) : Bool :=
  FALSE_ALERTS.any fun alert => decide (threshold ≤ ratio text alert)

/-- `is_similar(body, alerts, threshold=0.5)` (ims.py lines 58-64). -/
def is_similar (ratio : String → String → ℚ) (body : String)
    (alerts : List String) (threshold : ℚ) : Bool :=
  alerts.any fun alert => decide (threshold ≤ ratio body alert)

/-- A fetched unread message: `message.plain` and `message.html`, each
possibly `None`. -/
structure EmailMessage where
  plain : Option String
  html : Option String

/-- `message.plain or message.html or ""` (Python `or` keeps the first
truthy operand; `None` and `""` are falsy). -/
def rawBody (m : EmailMessage) : String :=
  if truthyOpt m.plain then m.plain.getD ""
  else if truthyOpt m.html then m.html.getD ""
  else ""

/-- `extract_text_from_html` (app.py lines 314-320): `""` for a falsy
argument, otherwise the converter's output (the converter parameter also
absorbs the `except` branch that returns the input unchanged). -/
def extract_text_from_html (conv : String → String) (html_content : String) : String :=
  if html_content = "" then "" else conv html_content

/-- The body app.py's loop computes (lines 373-375): the raw `or`-chain,
replaced by the converted HTML when the message has HTML but no plain
part. -/
def app_message_body (conv : String → String) (m : EmailMessage) : String :=
  if truthyOpt m.html && !(truthyOpt m.plain) then
    extract_text_from_html conv (m.html.getD "")
  else rawBody m

/-- The body ims.py's loop computes (lines 96-97): the raw `or`-chain when
the message has a plain part, otherwise the converted raw value (ims.py's
`extract_text` has no empty-input guard, so the converter is applied to
whatever the `or`-chain produced). -/
def ims_message_body (conv : String → String) (m : EmailMessage) : String :=
  if truthyOpt m.plain then rawBody m else conv (rawBody m)

/-- The externally visible outcome of processing one unread message. -/
structure MsgOutcome where
  markedRead : Bool
  insertedRecord : Option (String × String)
  buzzerActivated : Bool
deriving DecidableEq

/-- One message of app.py's `email_monitoring_loop` (lines 369-393, with
`process_email`, lines 322-348).  Empty body or false-alert similarity at
threshold 0.7 → mark read and skip; otherwise truncate to 255, classify,
insert and (for an alarm classification) activate the buzzer.  A classifier
error is caught by the per-message handler, which still marks the message
read; an insert error is caught inside `process_email` before the stats
update and the buzzer branch. -/
def app_process_message (conv : String → String) (ratio : String → String → ℚ)
    (classify : String → Except MLError String) (insertOk : Bool)
    (m : EmailMessage) : MsgOutcome :=
  let body := app_message_body conv m
  if body = "" then ⟨true, none, false⟩
  else if is_similar_to_false_alert ratio body (7/10) then ⟨true, none, false⟩
  else
    let body2 := if body.length > MAX_DESC_LEN then body.take MAX_DESC_LEN else body
    match classify body2 with
    | .error _ => ⟨true, none, false⟩
    | .ok pred =>
      if insertOk then
        ⟨true, some (body2, pred), decide (asciiLower pred = "alarm")⟩
      else ⟨true, none, false⟩

/-- One message of ims.py's `main` loop (lines 95-123).  Empty body or
false-alert similarity at threshold 0.5 → mark read and skip; otherwise
truncate, classify, insert (a DB error is caught and logged, lines 112-115,
and does not prevent the buzzer) and signal the buzzer on an alarm label.
A classifier error propagates to the outer cycle handler, so the message is
not marked read. -/
def ims_process_message (conv : String → String) (ratio : String → String → ℚ)
    (classify : String → Except MLError String) (insertOk : Bool)
    (m : EmailMessage) : MsgOutcome :=
  let body := ims_message_body conv m
  if (body = "") ∨ is_similar ratio body ims_FALSE_ALERTS (1/2) = true then
    ⟨true, none, false⟩
  else
    let body2 := if body.length > MAX_DESC_LEN then body.take MAX_DESC_LEN else body
    match classify body2 with
    | .error _ => ⟨false, none, false⟩
    | .ok pred =>
      ⟨true, if insertOk then some (body2, pred) else none,
        decide (asciiLower pred = "alarm")⟩

/-- Claim C2: in both cited modes, a message whose extracted body is empty,
or whose body has similarity ratio at or above the mode's threshold (0.7 in
app.py, 0.5 in ims.py) to some configured false-alert text, is marked read
with no fault record persisted and no buzzer activation. -/
theorem false_alert_filter_spec (conv : String → String)
    (ratio : String → String → ℚ) (classify : String → Except MLError String)
    (insertOk : Bool) (m : EmailMessage) :
    (app_message_body conv m = "" ∨
        (∃ alert ∈ FALSE_ALERTS, (7 : ℚ)/10 ≤ ratio (app_message_body conv m) alert) →
      app_process_message conv ratio classify insertOk m = ⟨true, none, false⟩) ∧
    (ims_message_body conv m = "" ∨
        (∃ alert ∈ ims_FALSE_ALERTS, (1 : ℚ)/2 ≤ ratio (ims_message_body conv m) alert) →
      ims_process_message conv ratio classify insertOk m = ⟨true, none, false⟩) := by
  constructor
  · intro h
    rcases h with h | h
    · simp [app_process_message, h]
    · have hs : is_similar_to_false_alert ratio (app_message_body conv m) (7/10) = true := by
        simp only [is_similar_to_false_alert, List.any_eq_true, decide_eq_true_eq]
        exact h
      unfold app_process_message
      by_cases hb : app_message_body conv m = "" <;> simp [hb, hs]
  · intro h
    rcases h with h | h
    · simp [ims_process_message, h]
    · have hs : is_similar ratio (ims_message_body conv m) ims_FALSE_ALERTS (1/2) = true := by
        simp only [is_similar, List.any_eq_true, decide_eq_true_eq]
        exact h
      rw [one_div] at hs
      simp [ims_process_message, hs]

/-- Witness for C2: a message whose plain body is exactly the configured
false-alert text, under a similarity function that returns ratio 1, is
filtered in both modes. -/
theorem false_alert_filter_spec_witness :
    app_process_message (fun s => s) (fun _ _ => 1) (fun _ => .ok "Alarm") true
        ⟨some falseAlertText, none⟩ = ⟨true, none, false⟩ ∧
    ims_process_message (fun s => s) (fun _ _ => 1) (fun _ => .ok "Alarm") true
        ⟨some falseAlertText, none⟩ = ⟨true, none, false⟩ := by
  have h := false_alert_filter_spec (fun s => s) (fun _ _ => 1)
    (fun _ => .ok "Alarm") true ⟨some falseAlertText, none⟩
  refine ⟨h.1 (Or.inr ⟨falseAlertText, ?_, by norm_num⟩),
    h.2 (Or.inr ⟨falseAlertText, ?_, by norm_num⟩)⟩
  · simp [FALSE_ALERTS]
  · simp [ims_FALSE_ALERTS]

/-! ## Buzzer deactivation timing (app.py BuzzerController vs final.py)

Timers are modelled by their absolute fire times (naturals).  app.py's
controller keeps a single `self.active_timer` slot and calls `.cancel()`
on it before scheduling a replacement; final.py's `activate_buzzer` spawns
a detached `deactivate_after_delay` thread per call and keeps no handle to
it, so nothing is ever cancelled. -/

/-- app.py `BuzzerController` state (lines 138-141): the Modbus server
running flag, the single pending-deactivation slot `self.active_timer`
(as its absolute fire time), and the shared `buzzer_active` flag. -/
structure AppBuzzer where
  serverRunning : Bool
  activeTimer : Option Nat
  buzzerActive : Bool
deriving DecidableEq

/-- `activate_buzzer` (app.py lines 160-187): requires the server running
(else the exception is caught and the state is unchanged), cancels any
pending timer, sets the buzzer active and schedules a one-shot
deactivation at `now + dur`.  `test_buzzer` (lines 204-206) is this same
operation at duration 5. -/
def AppBuzzer.activate_buzzer (s : AppBuzzer) (now dur : Nat) : AppBuzzer :=
  if s.serverRunning then ⟨s.serverRunning, some (now + dur), true⟩ else s

/-- `deactivate_buzzer` (app.py lines 189-202): requires the server
running, cancels any pending timer, clears the buzzer flag. -/
def AppBuzzer.deactivate_buzzer (s : AppBuzzer) : AppBuzzer :=
  if s.serverRunning then ⟨s.serverRunning, none, false⟩ else s

/-- The scheduled timer firing at time `u`: `auto_deactivate` (app.py
lines 175-180) runs `deactivate_buzzer`; a cancelled timer never fires. -/
def AppBuzzer.fireTimer (s : AppBuzzer) (u : Nat) : AppBuzzer :=
  if s.activeTimer = some u then s.deactivate_buzzer else s

/-- The outstanding deactivation timers of the app.py controller. -/
def AppBuzzer.pendingTimers (s : AppBuzzer) : List Nat := s.activeTimer.toList

/-- final.py state relevant to buzzer timing: the server flag, the wake
times of all pending `deactivate_after_delay` threads, and
`buzzer_active`. -/
structure FinalBuzzer where
  serverRunning : Bool
  pendingOff : List Nat
  buzzerActive : Bool
deriving DecidableEq

/-- `activate_buzzer` (final.py lines 522-559): requires the server
running, sets the buzzer active and starts a new detached
`deactivate_after_delay` thread waking at `now + dur`.  No existing
pending deactivation is cancelled. -/
def FinalBuzzer.activate_buzzer (s : FinalBuzzer) (now dur : Nat) : FinalBuzzer :=
  if s.serverRunning then ⟨s.serverRunning, s.pendingOff ++ [now + dur], true⟩ else s

/-- A pending `deactivate_after_delay` thread waking at time `u` (final.py
lines 536-548): it ends either way; it writes the OFF pattern and clears
`buzzer_active` only if the server is still running. -/
def FinalBuzzer.fireThread (s : FinalBuzzer) (u : Nat) : FinalBuzzer :=
  if u ∈ s.pendingOff then
    if s.serverRunning then ⟨s.serverRunning, s.pendingOff.erase u, false⟩
    else ⟨s.serverRunning, s.pendingOff.erase u, s.buzzerActive⟩
  else s

/-- The earliest pending deactivation deadline. -/
def FinalBuzzer.earliestOff (s : FinalBuzzer) : Option Nat := s.pendingOff.min?

/-- The decoupled-mode state after `activate_buzzer(duration=1)` at time 0
followed by `activate_buzzer(duration=10)` at time 0, starting from a
running server with no pending deactivation. -/
def finalTwoActivations : FinalBuzzer :=
  FinalBuzzer.activate_buzzer (FinalBuzzer.activate_buzzer ⟨true, [], false⟩ 0 1) 0 10

/-- Claim C3 counterexample: in decoupled mode (final.py `activate_buzzer`)
the second `activate` call does not cancel the first pending deactivation.
After `activate(1)` then `activate(10)` both at time 0, two deactivations
are pending (queued), and the earlier thread fires at time 1, returning the
buzzer to inactive — so the most recent call's duration (deadline 10) does
not determine when the buzzer goes inactive. -/
theorem final_activate_queues_deactivations :
    finalTwoActivations.pendingOff = [1, 10] ∧
    finalTwoActivations.pendingOff.length = 2 ∧
    finalTwoActivations.buzzerActive = true ∧
    (finalTwoActivations.fireThread 1).buzzerActive = false ∧
    FinalBuzzer.earliestOff finalTwoActivations = some 1 ∧
    (1 : Nat) ≠ 0 + 10 := by
  refine ⟨?_, ?_, ?_, ?_, ?_, ?_⟩ <;> decide

/-- Claim C3 (amended): only the integrated controller (app.py
`BuzzerController.activate_buzzer`) cancels the pending deactivation timer
before scheduling its own, so at most one timer is outstanding there and
the most recent call's deadline is the only pending one; in decoupled mode
(final.py `activate_buzzer`) each call appends a new uncancellable
deactivation thread to the pending ones instead of superseding them. -/
theorem buzzer_timer_spec (s : AppBuzzer) (t : FinalBuzzer) (now dur : Nat) :
    (s.serverRunning = true →
      (s.activate_buzzer now dur).activeTimer = some (now + dur) ∧
      (s.activate_buzzer now dur).pendingTimers = [now + dur] ∧
      (s.activate_buzzer now dur).buzzerActive = true) ∧
    (∀ s2 : AppBuzzer, s2.pendingTimers.length ≤ 1) ∧
    (t.serverRunning = true →
      (t.activate_buzzer now dur).pendingOff = t.pendingOff ++ [now + dur]) := by
  refine ⟨?_, ?_, ?_⟩
  · intro h
    refine ⟨?_, ?_, ?_⟩ <;>
      simp [AppBuzzer.activate_buzzer, AppBuzzer.pendingTimers, h]
  · intro s2
    cases h : s2.activeTimer <;> simp [AppBuzzer.pendingTimers, h]
  · intro h
    simp [FinalBuzzer.activate_buzzer, h]

/-- Witness for C3 (amended): a concrete activation with a stale pending
timer in the slot (app.py) and a concrete activation with one pending
deactivation thread (final.py). -/
theorem buzzer_timer_spec_witness :
    (AppBuzzer.activate_buzzer ⟨true, some 99, true⟩ 5 10).pendingTimers = [15] ∧
    (FinalBuzzer.activate_buzzer ⟨true, [7], false⟩ 5 10).pendingOff = [7, 15] := by
  have h := buzzer_timer_spec ⟨true, some 99, true⟩ ⟨true, [7], false⟩ 5 10
  refine ⟨(h.1 rfl).2.1, ?_⟩
  rw [h.2.2 rfl]
  rfl

/-! ## Holding registers (app.py BuzzerController, ims.py)

The Modbus server's holding-register bank is a total map from addresses to
values; `data_bank.set_holding_registers(addr, vals)` overwrites the block
of `vals.length` registers starting at `addr` and leaves every other
address unchanged. -/

/-- `data_bank.set_holding_registers(addr, vals)`. -/
def set_holding_registers (addr : Nat) (vals : List Nat) (regs : Nat → Nat) :
    Nat → Nat :=
  fun i => if addr ≤ i ∧ i < addr + vals.length then vals.getD (i - addr) 0 else regs i

/-- `CONFIG['MODBUS_REGISTER']` (app.py line 44). -/
def MODBUS_REGISTER : Nat := 10

/-- `BUZZER_FLAG_REG` (ims.py line 28). -/
def BUZZER_FLAG_REG : Nat := 10

/-- The ON pattern written at address 1 (app.py line 171, final.py line 530). -/
def BUZZER_ON_PATTERN : List Nat := [1, 10, 3, 10, 10]

/-- The OFF pattern written at address 1 (app.py lines 196 and 213). -/
def BUZZER_OFF_PATTERN : List Nat := [1, 0, 3, 10, 0]

/-- Register effect of `BuzzerController.initialize` (app.py line 151):
write `[0]` at the configured buzzer register. -/
def app_initialize_regs (regs : Nat → Nat) : Nat → Nat :=
  set_holding_registers MODBUS_REGISTER [0] regs

/-- The register-writing operations of the app.py controller after
initialization. -/
inductive AppRegOp where
  | activate
  | deactivate
  | test
  | autoDeactivate
  | cleanup
deriving DecidableEq

/-- The register effect of each operation: `activate_buzzer` (line 171) and
`test_buzzer` (which calls it, lines 204-206) write the ON pattern at
address 1; `deactivate_buzzer` (line 196), the auto-deactivation (which
calls it, lines 175-180) and `cleanup` (line 213) write the OFF pattern at
address 1. -/
def appOpRegs (op : AppRegOp) (regs : Nat → Nat) : Nat → Nat :=
  match op with
  | .activate => set_holding_registers 1 BUZZER_ON_PATTERN regs
  | .test => set_holding_registers 1 BUZZER_ON_PATTERN regs
  | .deactivate => set_holding_registers 1 BUZZER_OFF_PATTERN regs
  | .autoDeactivate => set_holding_registers 1 BUZZER_OFF_PATTERN regs
  | .cleanup => set_holding_registers 1 BUZZER_OFF_PATTERN regs

/-- The register bank after a sequence of controller operations. -/
def runAppRegOps (ops : List AppRegOp) (regs : Nat → Nat) : Nat → Nat :=
  ops.foldl (fun r op => appOpRegs op r) regs

/-- ims.py initialization (line 49): write `[0]` at `BUZZER_FLAG_REG`. -/
def ims_init_regs (regs : Nat → Nat) : Nat → Nat :=
  set_holding_registers BUZZER_FLAG_REG [0] regs

/-- `signal_buzzer`, activation phase (ims.py line 73): write `[1]` at
`BUZZER_FLAG_REG`. -/
def ims_signal_on (regs : Nat → Nat) : Nat → Nat :=
  set_holding_registers BUZZER_FLAG_REG [1] regs

/-- `signal_buzzer`, `finally` phase after the duration (ims.py line 77):
write `[0]` at `BUZZER_FLAG_REG`. -/
def ims_signal_off (regs : Nat → Nat) : Nat → Nat :=
  set_holding_registers BUZZER_FLAG_REG [0] regs

theorem appOpRegs_frame (op : AppRegOp) (regs : Nat → Nat) (i : Nat)
    (h : i < 1 ∨ 6 ≤ i) : appOpRegs op regs i = regs i := by
  have hc1 : ¬(1 ≤ i ∧ i < 1 + BUZZER_ON_PATTERN.length) := by
    simp only [BUZZER_ON_PATTERN, List.length_cons, List.length_nil]
    omega
  have hc2 : ¬(1 ≤ i ∧ i < 1 + BUZZER_OFF_PATTERN.length) := by
    simp only [BUZZER_OFF_PATTERN, List.length_cons, List.length_nil]
    omega
  cases op <;> simp only [appOpRegs, set_holding_registers] <;>
    rw [if_neg (by first | exact hc1 | exact hc2)]

theorem runAppRegOps_frame (ops : List AppRegOp) :
    ∀ (regs : Nat → Nat) (i : Nat), (i < 1 ∨ 6 ≤ i) →
      runAppRegOps ops regs i = regs i := by
  induction ops with
  | nil => intro regs i h; rfl
  | cons op rest ih =>
    intro regs i h
    show runAppRegOps rest (appOpRegs op regs) i = regs i
    rw [ih (appOpRegs op regs) i h, appOpRegs_frame op regs i h]

/-- Claim C7 counterexample: in minimal mode (ims.py `signal_buzzer`,
lines 70-78) buzzer activation writes the single register at address 10
itself — after initialization it holds 0, after the activation phase it
holds 1 — so it is not left unchanged by every subsequent activation
operation. -/
theorem ims_signal_writes_register_ten :
    ims_init_regs (fun _ => 0) BUZZER_FLAG_REG = 0 ∧
    ims_signal_on (ims_init_regs (fun _ => 0)) BUZZER_FLAG_REG = 1 ∧
    (1 : Nat) ≠ 0 := by
  refine ⟨?_, ?_, ?_⟩ <;> decide

/-- Claim C7 (amended): in the integrated controller (app.py) the register
at the configured address 10 is written once, to 0, at initialization,
which changes no other register, and every subsequent activate /
deactivate / test / auto-deactivation / cleanup operation writes only the
five registers at addresses 1-5, leaving register 10 at 0; in minimal mode
(ims.py) the buzzer signal is register 10 itself: activation writes 1
there and the end of the duration writes 0 there. -/
theorem register_ten_spec (ops : List AppRegOp) (regs0 : Nat → Nat) (i : Nat) :
    (app_initialize_regs regs0 MODBUS_REGISTER = 0) ∧
    (i ≠ MODBUS_REGISTER → app_initialize_regs regs0 i = regs0 i) ∧
    (runAppRegOps ops (app_initialize_regs regs0) MODBUS_REGISTER = 0) ∧
    ((i < 1 ∨ 6 ≤ i) →
      runAppRegOps ops (app_initialize_regs regs0) i = app_initialize_regs regs0 i) ∧
    (ims_signal_on (ims_init_regs regs0) BUZZER_FLAG_REG = 1) ∧
    (ims_signal_off (ims_signal_on (ims_init_regs regs0)) BUZZER_FLAG_REG = 0) := by
  have hinit : app_initialize_regs regs0 MODBUS_REGISTER = 0 := by
    simp [app_initialize_regs, set_holding_registers, MODBUS_REGISTER]
  refine ⟨hinit, ?_, ?_, ?_, ?_, ?_⟩
  · intro hi
    unfold app_initialize_regs set_holding_registers
    have hcond : ¬(MODBUS_REGISTER ≤ i ∧ i < MODBUS_REGISTER + ([0] : List Nat).length) := by
      unfold MODBUS_REGISTER at hi ⊢
      simp only [List.length_cons, List.length_nil]
      omega
    rw [if_neg hcond]
  · have h10 : MODBUS_REGISTER < 1 ∨ 6 ≤ MODBUS_REGISTER := by
      unfold MODBUS_REGISTER
      omega
    rw [runAppRegOps_frame ops _ MODBUS_REGISTER h10]
    exact hinit
  · intro h
    exact runAppRegOps_frame ops _ i h
  · simp [ims_signal_on, ims_init_regs, set_holding_registers, BUZZER_FLAG_REG]
  · simp [ims_signal_off, ims_signal_on, ims_init_regs, set_holding_registers,
      BUZZER_FLAG_REG]

/-- Witness for C7 (amended): a concrete operation sequence over a
concrete initial bank; register 10 stays 0 and untouched register 8 keeps
its initial value. -/
theorem register_ten_spec_witness :
    runAppRegOps [AppRegOp.activate, AppRegOp.test, AppRegOp.deactivate]
        (app_initialize_regs (fun _ => 7)) MODBUS_REGISTER = 0 ∧
    runAppRegOps [AppRegOp.activate, AppRegOp.test, AppRegOp.deactivate]
        (app_initialize_regs (fun _ => 7)) 8 = 7 := by
  have h := register_ten_spec [AppRegOp.activate, AppRegOp.test, AppRegOp.deactivate]
    (fun _ => 7) 8
  refine ⟨h.2.2.1, ?_⟩
  rw [h.2.2.2.1 (Or.inr (by norm_num))]
  decide

/-! ## final.py : restart policy (process re-execution) -/

/-- `CONFIG['MAX_RESTART_ATTEMPTS']` (final.py line 49). -/
def MAX_RESTART_ATTEMPTS : Nat := 3

/-- `SystemState.__init__` sets `self.restart_count = 0` (final.py line
151), and module import creates `system_state = SystemState()` (line 173),
so every process incarnation starts with this count. -/
def initial_restart_count : Nat := 0

/-- What `main()` does next at a failure point. -/
inductive MainOutcome where
  | reexec
  | exitNonZero
  | enterMainLoop
deriving DecidableEq

/-- The branch `main()` takes when `initialize_system()` returns False
(final.py lines 740-749), as a function of the restart count the failing
incarnation holds: strictly below the maximum → increment the count, sleep
`RESTART_DELAY` and re-execute the process via `os.execv`; otherwise → log
a terminal failure and `sys.exit(1)`.  The fatal-error handler (lines
765-772) takes the same branch on the same condition. -/
def main_on_init_failure (restart_count : Nat) : MainOutcome :=
  if restart_count < MAX_RESTART_ATTEMPTS then .reexec else .exitNonZero

/-- `os.execv(sys.executable, ...)` (final.py line 746) replaces the
process image; the re-executed program runs the module top level again and
re-creates `system_state`, so the increment of `restart_count` on line 744
does not survive.  The count at which the n-th incarnation (n prior
consecutive failed startups) evaluates the restart branch is therefore
`initial_restart_count`, independently of n. -/
def restart_count_at_incarnation (n : Nat) : Nat := initial_restart_count

/-- What the code does on the n-th consecutive failed startup. -/
def code_failure_outcome (n : Nat) : MainOutcome :=
  main_on_init_failure (restart_count_at_incarnation n)

/-- Modelled from the spec (for comparison): the behaviour claim C5
describes, in which the restart counter survives re-execution, so the n-th
consecutive failed startup evaluates the branch at count n. -/
def spec_failure_outcome (n : Nat) : MainOutcome := main_on_init_failure n

/-- Claim C5: the restart cap is never enforced by the code.  Every
incarnation evaluates the restart branch at `restart_count = 0`, so every
consecutive failed startup re-executes and `sys.exit(1)` is unreachable —
in particular the fourth failure (n = 3) re-executes, where the claimed
behaviour (counter surviving re-execution) would exit non-zero. -/
theorem restart_cap_never_enforced :
    (∀ n, code_failure_outcome n = .reexec) ∧
    (∀ n, code_failure_outcome n ≠ .exitNonZero) ∧
    spec_failure_outcome 3 = .exitNonZero ∧
    code_failure_outcome 3 = .reexec := by
  have h1 : ∀ n, code_failure_outcome n = .reexec := fun n => rfl
  refine ⟨h1, fun n => ?_, by decide, h1 3⟩
  rw [h1 n]
  decide

/-! ## secure_gmail.py : credential refresh -/

/-- An OAuth2 credential object as `google.oauth2.credentials.Credentials`
exposes it to this module: bearer token, refresh token and expiry (a
timestamp in seconds; `None` when the stored record carries none). -/
structure Credentials where
  token : Option String
  refresh_token : Option String
  expiry : Option Int
deriving DecidableEq

/-- google-auth's clock-skew allowance (seconds) used by `expired`. -/
def CLOCK_SKEW : Int := 150

/-- `credentials.expired` (google-auth, black box): false when no expiry
is set, true once the current time reaches the skewed expiry. -/
def Credentials.expired (c : Credentials) (now : Int) : Bool :=
  match c.expiry with
  | none => false
  | some e => decide (e - CLOCK_SKEW ≤ now)

/-- `credentials.valid` (google-auth, black box): token present and not
expired. -/
def Credentials.valid (c : Credentials) (now : Int) : Bool :=
  c.token.isSome && !(c.expired now)

/-- `SecureGmailClient._needs_refresh` (secure_gmail.py lines 155-161):
false when the credentials have no expiry; otherwise true iff the expiry
is at or before `now` plus the refresh threshold. -/
def needs_refresh (refresh_threshold_hours : Int) (c : Credentials) (now : Int) : Bool :=
  match c.expiry with
  | none => false
  | some e => decide (e ≤ now + 3600 * refresh_threshold_hours)

/-- The observable result of `_authenticate`. -/
inductive AuthResult where
  | asIs (c : Credentials)
  | refreshed (c : Credentials)
  | newFlow
  | raised
deriving DecidableEq

/-- `SecureGmailClient._authenticate` (secure_gmail.py lines 175-199):
valid loaded credentials are refreshed when within the threshold (a
refresh failure propagates there) and otherwise returned as-is; expired
credentials with a refresh token are refreshed, falling back to the
interactive flow if the refresh fails; anything else runs the interactive
flow.  `refreshOk` abstracts whether the network refresh succeeds. -/
def authenticate (refreshOk : Bool) (thresholdHours now : Int)
    (loaded : Option Credentials) : AuthResult :=
  match loaded with
  | none => .newFlow
  | some c =>
    if c.valid now then
      if needs_refresh thresholdHours c now then
        if refreshOk then .refreshed c else .raised
      else .asIs c
    else if c.expired now && c.refresh_token.isSome then
      if refreshOk then .refreshed c else .newFlow
    else .newFlow

/-- Claim C10: credentials whose stored record carries no expiry are never
considered in need of refresh — `_needs_refresh` returns false whenever
expiry is absent — and `_authenticate` returns such valid credentials
as-is, never entering the refresh path. -/
theorem no_expiry_no_refresh (refreshOk : Bool) (th now : Int) (c : Credentials)
    (hexp : c.expiry = none) :
    needs_refresh th c now = false ∧
    (c.valid now = true → authenticate refreshOk th now (some c) = .asIs c) := by
  constructor
  · simp [needs_refresh, hexp]
  · intro hv
    simp [authenticate, hv, needs_refresh, hexp]

/-- Witness for C10: a concrete valid token record without expiry. -/
theorem no_expiry_no_refresh_witness :
    needs_refresh 1 ⟨some "tok", none, none⟩ 1000 = false ∧
    authenticate true 1 1000 (some ⟨some "tok", none, none⟩) =
      .asIs ⟨some "tok", none, none⟩ := by
  have h := no_expiry_no_refresh true 1 1000 ⟨some "tok", none, none⟩ rfl
  exact ⟨h.1, h.2 (by decide)⟩

/-! ## hardened_ml_models.py : _preprocess_text -/

/-- The first two (infallible) steps of `_preprocess_text`
(hardened_ml_models.py lines 134-137): lowercase, then keep only
alphabetic characters and whitespace.  After line 137 the local `text`
holds this value. -/
def lowerFilterStep (input : String) : String :=
  String.mk ((asciiLower input).data.filter fun c => c.isAlpha || isPySpace c)

/-- The `[self.lemmatizer.lemmatize(word) for word in tokens]`
comprehension (line 146): lemmatize each token in order, aborting at the
first raised exception. -/
def mapMExcept (f : String → Except Unit String) :
    List String → Except Unit (List String)
  | [] => .ok []
  | x :: xs =>
    match f x with
    | .error e => .error e
    | .ok y =>
      match mapMExcept f xs with
      | .error e => .error e
      | .ok ys => .ok (y :: ys)

/-- `HardenedMLModels._preprocess_text` (hardened_ml_models.py lines
130-152).  The tokenizer (`nltk.word_tokenize`, which raises when e.g. the
punkt data is missing) and the lemmatizer are fallible parameters.  The
`except` handler (lines 150-152) returns the current value of the local
`text`, which after line 137 is the lowercased, filtered string — not the
function's original argument. -/
def hardened_preprocess_text (tokenize : String → Except Unit (List String))
    (lemmatize : String → Except Unit String) (input : String) : String :=
  let text2 := lowerFilterStep input
  match tokenize text2 with
  | .error _ => text2
  | .ok tokens =>
    match mapMExcept lemmatize tokens with
    | .error _ => text2
    | .ok toks => String.intercalate " " toks

/-- Claim C9 counterexample: with a tokenizer that raises, the fallback is
the lowercased, filtered text, not the original input: on `"ABC 123"` the
function returns `"abc "` (case folded, digits dropped), which differs
from `"ABC 123"`. -/
theorem hardened_preprocess_fallback_not_original :
    hardened_preprocess_text (fun _ => .error ()) (fun t => .ok t) "ABC 123" = "abc " ∧
    "abc " ≠ "ABC 123" := by
  constructor
  · decide
  · decide

/-- Claim C9 (amended): `_preprocess_text` is a total function (it never
propagates a step failure): when the tokenizer or the lemmatizer raises it
returns the partially-processed text as of the failure point — the
lowercased, letter/whitespace-filtered string — and when every step
succeeds it returns the lemmatized tokens rejoined with single spaces; so
training and prediction silently proceed on partially preprocessed (not
original) text when a step fails. -/
theorem hardened_preprocess_spec (tokenize : String → Except Unit (List String))
    (lemmatize : String → Except Unit String) (input : String) :
    (∀ e, tokenize (lowerFilterStep input) = .error e →
      hardened_preprocess_text tokenize lemmatize input = lowerFilterStep input) ∧
    (∀ toks e, tokenize (lowerFilterStep input) = .ok toks →
      mapMExcept lemmatize toks = .error e →
      hardened_preprocess_text tokenize lemmatize input = lowerFilterStep input) ∧
    (∀ toks ls, tokenize (lowerFilterStep input) = .ok toks →
      mapMExcept lemmatize toks = .ok ls →
      hardened_preprocess_text tokenize lemmatize input =
        String.intercalate " " ls) := by
  refine ⟨?_, ?_, ?_⟩
  · intro e h
    simp [hardened_preprocess_text, h]
  · intro toks e h1 h2
    simp [hardened_preprocess_text, h1, h2]
  · intro toks ls h1 h2
    simp [hardened_preprocess_text, h1, h2]

/-- Witness for C9 (amended): a concrete failing tokenizer on a concrete
input. -/
theorem hardened_preprocess_spec_witness :
    hardened_preprocess_text (fun _ => .error ()) Except.ok "Error 404" = "error " := by
  have h := (hardened_preprocess_spec (fun _ => .error ()) Except.ok "Error 404").1 () rfl
  rw [h]
  decide

/-! ## app.py : hourly statistics (get_hourly_statistics)

`get_hourly_statistics` (app.py lines 986-1008) builds
`stats = {h: {'alarm': 0, 'info': 0} for h in range(24)}`, returns it as-is
when no database connection can be opened, and otherwise overwrites
`stats[int(hh)]` for every row `(hh, alarms, infos)` of the per-hour
GROUP BY query over today's `Faults` rows (`hh` is guarded against NULL).
The dict is modelled as an association list in insertion order;
`pyDictSet` is Python dict assignment (replace in place when the key is
present, append otherwise); a query result row carries the hour key
(`HOUR(...)` of a parseable timestamp, hence below 24 — kept as a
well-formedness hypothesis) and the two counts. -/


/-- Python dict assignment `d[k] = v` on an insertion-ordered mapping:
replace the entry in place when the key is present, append otherwise. -/
def pyDictSet (k : Nat) (v : Nat × Nat) (d : List (Nat × (Nat × Nat))) :
    List (Nat × (Nat × Nat)) :=
  if d.any (fun p => p.1 == k) then
    d.map (fun p => if p.1 == k then (k, v) else p)
  else d ++ [(k, v)]

theorem lookup_append (k : Nat) (l1 l2 : List (Nat × (Nat × Nat))) :
    List.lookup k (l1 ++ l2) =
      match List.lookup k l1 with
      | some v => some v
      | none => List.lookup k l2 := by
  induction l1 with
  | nil => simp [List.lookup]
  | cons a t ih =>
    obtain ⟨k1, v1⟩ := a
    by_cases hk : k = k1
    · simp [List.lookup_cons, hk]
    · simp only [List.cons_append, List.lookup_cons, beq_eq_false_iff_ne.mpr hk]
      exact ih

theorem lookup_map_upd (k : Nat) (v : Nat × Nat) (d : List (Nat × (Nat × Nat)))
    (hany : d.any (fun p => p.1 == k) = true) :
    List.lookup k (d.map (fun p => if p.1 == k then (k, v) else p)) = some v := by
  induction d with
  | nil => simp at hany
  | cons a t ih =>
    obtain ⟨k1, v1⟩ := a
    by_cases hak : k1 = k
    · simp [List.lookup_cons, hak]
    · have h1 : (k1 == k) = false := beq_eq_false_iff_ne.mpr hak
      simp only [List.map_cons] at *
      rw [show (if ((k1, v1).1 == k) = true then (k, v) else (k1, v1)) = (k1, v1) from by
        simp [h1]]
      rw [List.lookup_cons]
      rw [show (k == k1) = false from beq_eq_false_iff_ne.mpr (Ne.symm hak)]
      apply ih
      simp only [List.any_cons, h1, Bool.false_or] at hany
      exact hany

theorem lookup_none_of_any_false (k : Nat) (d : List (Nat × (Nat × Nat)))
    (hany : d.any (fun p => p.1 == k) = false) :
    List.lookup k d = none := by
  induction d with
  | nil => rfl
  | cons a t ih =>
    obtain ⟨k1, v1⟩ := a
    simp only [List.any_cons, Bool.or_eq_false_iff] at hany
    have h1 : k ≠ k1 := by
      have := hany.1
      simp only [beq_eq_false_iff_ne] at this
      exact Ne.symm this
    rw [List.lookup_cons, show (k == k1) = false from beq_eq_false_iff_ne.mpr h1]
    exact ih hany.2

theorem lookup_pyDictSet_self (k : Nat) (v : Nat × Nat)
    (d : List (Nat × (Nat × Nat))) :
    List.lookup k (pyDictSet k v d) = some v := by
  unfold pyDictSet
  by_cases hany : d.any (fun p => p.1 == k) = true
  · rw [if_pos hany]
    exact lookup_map_upd k v d hany
  · rw [if_neg hany]
    have hfalse : d.any (fun p => p.1 == k) = false := by
      cases h : d.any (fun p => p.1 == k)
      · rfl
      · exact absurd h hany
    rw [lookup_append, lookup_none_of_any_false k d hfalse]
    simp [List.lookup_cons]

theorem lookup_pyDictSet_ne (k2 k : Nat) (v : Nat × Nat)
    (d : List (Nat × (Nat × Nat))) (hne : k2 ≠ k) :
    List.lookup k2 (pyDictSet k v d) = List.lookup k2 d := by
  unfold pyDictSet
  by_cases hany : d.any (fun p => p.1 == k) = true
  · rw [if_pos hany]
    clear hany
    induction d with
    | nil => rfl
    | cons a t ih =>
      obtain ⟨k1, v1⟩ := a
      by_cases hak : k1 = k
      · subst hak
        have h2 : (k2 == k1) = false := beq_eq_false_iff_ne.mpr hne
        simp only [List.map_cons]
        rw [show (if ((k1, v1).1 == k1) = true then (k1, v) else (k1, v1)) = (k1, v)
          from by simp]
        rw [List.lookup_cons, List.lookup_cons, h2, ih]
      · have h1 : (k1 == k) = false := beq_eq_false_iff_ne.mpr hak
        simp only [List.map_cons]
        rw [show (if ((k1, v1).1 == k) = true then (k, v) else (k1, v1)) = (k1, v1)
          from by simp [h1]]
        rw [List.lookup_cons, List.lookup_cons, ih]
  · rw [if_neg hany]
    rw [lookup_append]
    have h2 : (k2 == k) = false := beq_eq_false_iff_ne.mpr hne
    cases hl : List.lookup k2 d with
    | some v2 => rfl
    | none => simp [List.lookup_cons, h2]

theorem keys_pyDictSet (k : Nat) (v : Nat × Nat) (d : List (Nat × (Nat × Nat)))
    (hany : d.any (fun p => p.1 == k) = true) :
    (pyDictSet k v d).map Prod.fst = d.map Prod.fst := by
  unfold pyDictSet
  rw [if_pos hany]
  clear hany
  induction d with
  | nil => rfl
  | cons a t ih =>
    obtain ⟨k1, v1⟩ := a
    by_cases hak : k1 = k
    · subst hak
      simp only [List.map_cons, List.map_map] at ih ⊢
      rw [show (if ((k1, v1).1 == k1) = true then (k1, v) else (k1, v1)) = (k1, v)
        from by simp]
      simp only [ih]
    · have h1 : (k1 == k) = false := beq_eq_false_iff_ne.mpr hak
      simp only [List.map_cons, List.map_map] at ih ⊢
      rw [show (if ((k1, v1).1 == k) = true then (k, v) else (k1, v1)) = (k1, v1)
        from by simp [h1]]
      simp only [ih]



/-- One row of the hourly GROUP BY query result: the hour (NULL only if
the stored timestamp failed to parse — the code guards `if hh is not
None`), the alarm count and the info count. -/
structure HourRow where
  hh : Option Nat
  alarms : Nat
  infos : Nat
deriving DecidableEq

/-- `stats = {h: {'alarm': 0, 'info': 0} for h in range(24)}` (line 988). -/
def initHourlyStats : List (Nat × (Nat × Nat)) :=
  (List.range 24).map (fun h => (h, (0, 0)))

/-- One iteration of the row loop (lines 1002-1004): skip a NULL hour,
otherwise `stats[int(hh)] = {'alarm': ..., 'info': ...}`. -/
def hourRowStep (st : List (Nat × (Nat × Nat))) (r : HourRow) :
    List (Nat × (Nat × Nat)) :=
  match r.hh with
  | some h => pyDictSet h (r.alarms, r.infos) st
  | none => st

/-- The row loop over the query result. -/
def applyHourRows (rows : List HourRow) (st : List (Nat × (Nat × Nat))) :
    List (Nat × (Nat × Nat)) :=
  rows.foldl hourRowStep st

/-- `get_hourly_statistics` (app.py lines 986-1008), as a function of
whether a database connection was obtained and of the query result. -/
def get_hourly_statistics (conn : Bool) (rows : List HourRow) :
    List (Nat × (Nat × Nat)) :=
  if !conn then initHourlyStats
  else applyHourRows rows initHourlyStats

/-- The last row of the list carrying hour `h` (the row whose dict
assignment survives). -/
def findLastRow (h : Nat) : List HourRow → Option HourRow
  | [] => none
  | r :: rest =>
    match findLastRow h rest with
    | some r2 => some r2
    | none => if r.hh = some h then some r else none

theorem lookup_applyHourRows (h : Nat) : ∀ (rows : List HourRow)
    (st : List (Nat × (Nat × Nat))),
    List.lookup h (applyHourRows rows st) =
      match findLastRow h rows with
      | some r => some (r.alarms, r.infos)
      | none => List.lookup h st := by
  intro rows
  induction rows with
  | nil => intro st; rfl
  | cons r rest ih =>
    intro st
    show List.lookup h (applyHourRows rest (hourRowStep st r)) = _
    rw [ih (hourRowStep st r)]
    cases hf : findLastRow h rest with
    | some r2 => simp [findLastRow, hf]
    | none =>
      simp only [findLastRow, hf]
      cases hr : r.hh with
      | none =>
        simp only [hourRowStep, hr]
        have hne : ¬((none : Option Nat) = some h) := Option.noConfusion
        rw [if_neg hne]
      | some h2 =>
        by_cases hh2 : h2 = h
        · subst hh2
          simp only [hourRowStep, hr]
          rw [if_pos trivial]
          exact lookup_pyDictSet_self h2 (r.alarms, r.infos) st
        · have hne : ¬((some h2 : Option Nat) = some h) := by
            intro hc
            exact hh2 (Option.some.injEq h2 h ▸ hc)
          simp only [hourRowStep, hr]
          rw [if_neg hne]
          exact lookup_pyDictSet_ne h h2 (r.alarms, r.infos) st (fun hc => hh2 hc.symm)

theorem findLastRow_mem (h : Nat) : ∀ (rows : List HourRow) (r : HourRow),
    findLastRow h rows = some r → r ∈ rows ∧ r.hh = some h := by
  intro rows
  induction rows with
  | nil => intro r hr; exact Option.noConfusion hr
  | cons r0 rest ih =>
    intro r hr
    unfold findLastRow at hr
    cases hf : findLastRow h rest with
    | some r2 =>
      rw [hf] at hr
      obtain ⟨h1, h2⟩ := ih r2 hf
      cases hr
      exact ⟨List.mem_cons_of_mem r0 h1, h2⟩
    | none =>
      rw [hf] at hr
      by_cases hr0 : r0.hh = some h
      · rw [if_pos hr0] at hr
        cases hr
        exact ⟨List.mem_cons_self r0 rest, hr0⟩
      · rw [if_neg hr0] at hr
        exact Option.noConfusion hr

theorem findLastRow_isSome (h : Nat) : ∀ (rows : List HourRow) (r : HourRow),
    r ∈ rows → r.hh = some h → (findLastRow h rows).isSome = true := by
  intro rows
  induction rows with
  | nil => intro r hr; exact absurd hr (List.not_mem_nil r)
  | cons r0 rest ih =>
    intro r hr hh
    unfold findLastRow
    cases hf : findLastRow h rest with
    | some r2 => rfl
    | none =>
      rcases List.mem_cons.mp hr with rfl | hmem
      · rw [if_pos hh]; rfl
      · have := ih r hmem hh
        rw [hf] at this
        exact absurd this (by simp)

theorem keys_applyHourRows : ∀ (rows : List HourRow) (st : List (Nat × (Nat × Nat))),
    (∀ r ∈ rows, ∀ h, r.hh = some h → (st.map Prod.fst).contains h = true) →
    (applyHourRows rows st).map Prod.fst = st.map Prod.fst := by
  intro rows
  induction rows with
  | nil => intro st _; rfl
  | cons r rest ih =>
    intro st hwf
    show (applyHourRows rest (hourRowStep st r)).map Prod.fst = _
    have hkeys : (hourRowStep st r).map Prod.fst = st.map Prod.fst := by
      cases hr : r.hh with
      | none => simp [hourRowStep, hr]
      | some h =>
        have hmem := hwf r (List.mem_cons_self r rest) h hr
        have hany : st.any (fun p => p.1 == h) = true := by
          simp only [List.contains, List.elem_eq_mem, decide_eq_true_eq,
            List.mem_map] at hmem
          simp only [List.any_eq_true]
          obtain ⟨p, hp, hfst⟩ := hmem
          exact ⟨p, hp, by simp [hfst]⟩
        simp only [hourRowStep, hr]
        exact keys_pyDictSet h (r.alarms, r.infos) st hany
    rw [ih (hourRowStep st r) ?_, hkeys]
    intro r2 hr2 h hh
    rw [hkeys]
    exact hwf r2 (List.mem_cons_of_mem r hr2) h hh

theorem lookup_range_map (n h : Nat) :
    List.lookup h ((List.range n).map (fun x => (x, ((0 : Nat), (0 : Nat))))) =
      if h < n then some (0, 0) else none := by
  induction n with
  | zero => simp [List.lookup]
  | succ n ih =>
    rw [List.range_succ, List.map_append, lookup_append, ih]
    by_cases hn : h < n
    · rw [if_pos hn, if_pos (by omega)]
    · rw [if_neg hn]
      by_cases he : h = n
      · subst he
        simp [List.lookup_cons]
      · rw [if_neg (by omega)]
        simp [List.lookup_cons, beq_eq_false_iff_ne.mpr he]



theorem keys_init : initHourlyStats.map Prod.fst = List.range 24 := by
  simp [initHourlyStats, List.map_map, Function.comp_def]

/-- Claim C8: the hourly-statistics mapping always contains all 24 hour
keys 0..23 (in order), equals the all-zero default mapping when there is
no connection, maps every hour with no data row to `(alarm 0, info 0)`,
and maps an hour with a (unique, as the GROUP BY guarantees) data row to
that row's counts. -/
theorem get_hourly_statistics_spec (conn : Bool) (rows : List HourRow)
    (hwf : ∀ r ∈ rows, ∀ h, r.hh = some h → h < 24) :
    ((get_hourly_statistics conn rows).map Prod.fst = List.range 24) ∧
    (conn = false → get_hourly_statistics conn rows = initHourlyStats) ∧
    (∀ h, h < 24 → (∀ r ∈ rows, r.hh ≠ some h) →
      List.lookup h (get_hourly_statistics conn rows) = some (0, 0)) ∧
    (∀ h r, r ∈ rows → r.hh = some h →
      (∀ r2 ∈ rows, r2.hh = some h → r2 = r) → conn = true →
      List.lookup h (get_hourly_statistics conn rows) = some (r.alarms, r.infos)) := by
  have hinitlookup : ∀ h : Nat, h < 24 →
      List.lookup h initHourlyStats = some (0, 0) := by
    intro h hlt
    have := lookup_range_map 24 h
    rw [if_pos hlt] at this
    exact this
  refine ⟨?_, ?_, ?_, ?_⟩
  · cases conn with
    | false => simpa [get_hourly_statistics] using keys_init
    | true =>
      show (applyHourRows rows initHourlyStats).map Prod.fst = List.range 24
      rw [keys_applyHourRows rows initHourlyStats ?_, keys_init]
      intro r hr h hh
      rw [keys_init]
      have hlt := hwf r hr h hh
      simp only [List.contains, List.elem_eq_mem, decide_eq_true_eq, List.mem_range]
      exact hlt
  · intro hc
    subst hc
    rfl
  · intro h hlt hnone
    cases conn with
    | false => exact hinitlookup h hlt
    | true =>
      show List.lookup h (applyHourRows rows initHourlyStats) = some (0, 0)
      rw [lookup_applyHourRows h rows initHourlyStats]
      cases hf : findLastRow h rows with
      | some r =>
        obtain ⟨hmem, hh⟩ := findLastRow_mem h rows r hf
        exact absurd hh (hnone r hmem)
      | none => exact hinitlookup h hlt
  · intro h r hr hh huniq hc
    subst hc
    show List.lookup h (applyHourRows rows initHourlyStats) = some (r.alarms, r.infos)
    rw [lookup_applyHourRows h rows initHourlyStats]
    cases hf : findLastRow h rows with
    | none =>
      have := findLastRow_isSome h rows r hr hh
      rw [hf] at this
      exact absurd this (by simp)
    | some r2 =>
      obtain ⟨hmem2, hh2⟩ := findLastRow_mem h rows r2 hf
      rw [huniq r2 hmem2 hh2]

/-- Witness for C8: one row at hour 9 with counts (2, 1); hour 9 reads
back the counts, hour 5 the default, and the key list is 0..23. -/
theorem get_hourly_statistics_spec_witness :
    List.lookup 9 (get_hourly_statistics true [⟨some 9, 2, 1⟩]) = some (2, 1) ∧
    List.lookup 5 (get_hourly_statistics true [⟨some 9, 2, 1⟩]) = some (0, 0) ∧
    (get_hourly_statistics true [⟨some 9, 2, 1⟩]).map Prod.fst = List.range 24 := by
  have h := get_hourly_statistics_spec true [⟨some 9, 2, 1⟩] ?_
  · refine ⟨?_, ?_, h.1⟩
    · exact h.2.2.2 9 ⟨some 9, 2, 1⟩ (List.mem_singleton.mpr rfl) rfl
        (fun r2 hr2 _ => List.mem_singleton.mp hr2) rfl
    · refine h.2.2.1 5 (by omega) ?_
      intro r hr
      rw [List.mem_singleton.mp hr]
      intro hc
      exact Option.noConfusion hc (fun he => by omega)
  · intro r hr hx hh
    rw [List.mem_singleton.mp hr] at hh
    cases hh
    omega


end NocBuzzer
